import Mathlib

/-!
Verification of the FunPay auto-dumper pricing bot (`src/auto_dumper.py`).

We shallowly embed the core logic of the program: the listing-snapshot data
model, the pure scanning functions `find_my_listing` and
`find_cheapest_competitor`, the pricing decision inlined in
`check_and_update_price`, the snapshot reader `get_market_prices`, the cycle
orchestration of `check_and_update_price`, and the configuration loader
`load_config_file` over an association-list model of the Python config dict.
Prices are modelled as rationals; identifiers as strings.
-/

namespace AutoDumper

/-- One entry of the market snapshot, as built by `get_market_prices`
(`auto_dumper.py` lines 132-140): seller id, seller display name,
price and listing (lot) id. -/
structure Seller where
  seller_id : String
  seller_name : String
  price : ℚ
  lot_id : String
  deriving DecidableEq, Repr

/-- One raw lot as returned by the external FunPay API
(`lot.user_id`, `lot.user_name`, `lot.price`, `lot.id`). -/
structure Lot where
  user_id : String
  user_name : String
  price : ℚ
  id : String
  deriving DecidableEq, Repr

/-- The configuration values read by the pricing engine
(`self.config["lot_id"]`, `["whitelist"]`, `["price_decrease_amount"]`,
`["min_price"]`). -/
structure PricingConfig where
  lot_id : String
  whitelist : List String
  price_decrease_amount : ℚ
  min_price : ℚ
  deriving Repr

/-- The pricing decision taken by `check_and_update_price`
(lines 230-241): either no action, or set the price to a new value. -/
inductive Decision where
  | NoAction : Decision
  | SetPrice : ℚ → Decision
  deriving DecidableEq, Repr

/-- The decision logic inlined in `check_and_update_price` lines 230-241:
no action when `my_price <= competitor_price`; otherwise the new price is
`competitor_price - decrease_amount`, raised to `min_price` when below it. -/
def priceDecision (my_price competitor_price decrease_amount min_price : ℚ) :
    Decision :=
  if my_price ≤ competitor_price then
    Decision.NoAction
  else
    let new_price := competitor_price - decrease_amount
    let new_price := if new_price < min_price then min_price else new_price
    Decision.SetPrice new_price

/-- `find_my_listing` (lines 149-155): return the first seller whose
`lot_id` equals the configured lot id, else none. -/
def find_my_listing (my_lot_id : String) : List Seller → Option Seller
  | [] => none
  | seller :: rest =>
    if seller.lot_id == my_lot_id then some seller
    else find_my_listing my_lot_id rest

/-- The body of the loop of `find_cheapest_competitor` (lines 162-172):
given the current `cheapest` candidate and a seller that passed both skip
tests, keep the seller iff the candidate is absent or strictly dearer. -/
def pickCheaper (cheapest : Option Seller) (seller : Seller) : Option Seller :=
  match cheapest with
  | none => some seller
  | some c => if seller.price < c.price then some seller else some c

/-- `find_cheapest_competitor` (lines 157-174): fold over the sellers,
skipping the own listing and whitelisted sellers, keeping the first
strictly-cheapest of the rest. -/
def find_cheapest_competitor (my_lot_id : String) (whitelist : List String)
    (sellers : List Seller) : Option Seller :=
  sellers.foldl
    (fun cheapest seller =>
      if seller.lot_id == my_lot_id then cheapest
      else if whitelist.contains seller.seller_id
          || whitelist.contains seller.seller_name then cheapest
      else pickCheaper cheapest seller)
    none

/-- Eligibility of a seller as a competitor: the two skip tests of
`find_cheapest_competitor` (lines 163-169) combined. -/
def eligibleSeller (my_lot_id : String) (whitelist : List String)
    (seller : Seller) : Bool :=
  !(seller.lot_id == my_lot_id)
    && !(whitelist.contains seller.seller_id
        || whitelist.contains seller.seller_name)

/-- A value stored in the Python `CONFIG` dict: a string, a number, a list
of strings (the whitelist), or `None` (absent environment variable). -/
inductive CVal where
  | vstr : String → CVal
  | vnum : ℚ → CVal
  | vlist : List String → CVal
  | vnull : CVal
  deriving DecidableEq, Repr

/-- Python falsiness of a config value, as used by the
`if not self.config[field]` test (line 73): empty string, zero, empty list
and `None` are falsy. -/
def CVal.falsy : CVal → Bool
  | vstr s => s == ""
  | vnum q => decide (q = 0)
  | vlist l => l.isEmpty
  | vnull => true

/-- `key in self.config` (line 65) on the association-list model of the
config dict. -/
def configHasKey (cfg : List (String × CVal)) (k : String) : Bool :=
  cfg.any (fun p => p.1 == k)

/-- `self.config[key] = value` (line 66): replace the value at an existing
key, keeping the dict's key set. -/
def configSet (cfg : List (String × CVal)) (k : String) (v : CVal) :
    List (String × CVal) :=
  cfg.map (fun p => if p.1 == k then (k, v) else p)

/-- `self.config[field]` (line 73): value at a key, `None` when absent. -/
def configGet (cfg : List (String × CVal)) (k : String) : CVal :=
  match cfg.find? (fun p => p.1 == k) with
  | some p => p.2
  | none => CVal.vnull

/-- The update loop of `load_config_file` (lines 64-66): each file entry
overwrites the config value at its key only when the key already exists. -/
def applyUserConfig (cfg user : List (String × CVal)) : List (String × CVal) :=
  user.foldl
    (fun c kv => if configHasKey c kv.1 then configSet c kv.1 kv.2 else c) cfg

/-- The required fields validated by `load_config_file` (line 71). -/
def requiredFields : List String := ["game_id", "server_id", "lot_id", "min_price"]

/-- `load_config_file` (lines 57-80): `none` models a file that failed to
open or parse (the `except` path, returning `False` with the config
untouched); otherwise the file's entries are merged into the config and the
required fields are checked for Python truthiness. Returns the success flag
and the updated config. -/
def load_config_file (cfg : List (String × CVal))
    (file : Option (List (String × CVal))) : Bool × List (String × CVal) :=
  match file with
  | none => (false, cfg)
  | some user =>
    let cfg2 := applyUserConfig cfg user
    (requiredFields.all (fun f => ! (configGet cfg2 f).falsy), cfg2)

/-- The module-level `CONFIG` dict (lines 30-42), with the four
environment-derived values as parameters. -/
def defaultCONFIG (tg tgc fu fp : CVal) : List (String × CVal) :=
  [("check_interval_minutes", CVal.vnum 10),
   ("price_decrease_amount", CVal.vnum 1),
   ("min_price", CVal.vnum 0),
   ("telegram_token", tg),
   ("telegram_chat_id", tgc),
   ("funpay_username", fu),
   ("funpay_password", fp),
   ("game_id", CVal.vstr ""),
   ("server_id", CVal.vstr ""),
   ("lot_id", CVal.vstr ""),
   ("whitelist", CVal.vlist [])]

/-- The external world as one cycle of `check_and_update_price` observes
it: whether `self.funpay_account` is already set, whether a login attempt
would succeed, the outcome of the remote `get_lots` call (an error models a
raised transport/parse exception), and whether `change_lot_price` would
succeed. -/
structure CycleEnv where
  logged_in : Bool
  login_ok : Bool
  fetch : Except String (List Lot)
  update_ok : Bool

/-- `get_market_prices` (lines 115-147): empty when not logged in; empty
when the remote query raises; otherwise each lot is normalized into a
`Seller` record (lines 132-140). -/
def get_market_prices (logged_in : Bool) (fetch : Except String (List Lot)) :
    List Seller :=
  if !logged_in then []
  else
    match fetch with
    | Except.error _ => []
    | Except.ok lots =>
      lots.map fun lot =>
        { seller_id := lot.user_id
          seller_name := lot.user_name
          price := lot.price
          lot_id := lot.id }

/-- How one run of `check_and_update_price` ended (which early `return` or
final branch was taken). -/
inductive CycleStatus where
  | abortLoginFailed : CycleStatus
  | abortNoSellers : CycleStatus
  | abortNoSelf : CycleStatus
  | abortNoCompetitor : CycleStatus
  | noActionCheapest : CycleStatus
  | updated : CycleStatus
  | updateFailed : CycleStatus
  deriving DecidableEq, Repr

/-- The observable effects of one run of `check_and_update_price`: the
price passed to `update_my_price` when that call was made, whether
`send_telegram_notification` was invoked, and how the run ended. -/
structure CycleOutcome where
  update_attempted : Option ℚ
  notified : Bool
  status : CycleStatus
  deriving DecidableEq, Repr

/-- `check_and_update_price` (lines 198-252): ensure login, fetch the
snapshot, locate the own listing, pick the cheapest eligible competitor,
compare prices, compute the clamped new price, attempt the update, and
notify only when the update succeeded. -/
def check_and_update_price (cfg : PricingConfig) (env : CycleEnv) :
    CycleOutcome :=
  if !env.logged_in && !env.login_ok then
    { update_attempted := none, notified := false
      status := CycleStatus.abortLoginFailed }
  else
    let sellers := get_market_prices true env.fetch
    if sellers.isEmpty then
      { update_attempted := none, notified := false
        status := CycleStatus.abortNoSellers }
    else
      match find_my_listing cfg.lot_id sellers with
      | none =>
        { update_attempted := none, notified := false
          status := CycleStatus.abortNoSelf }
      | some my_listing =>
        match find_cheapest_competitor cfg.lot_id cfg.whitelist sellers with
        | none =>
          { update_attempted := none, notified := false
            status := CycleStatus.abortNoCompetitor }
        | some cheapest_competitor =>
          if my_listing.price ≤ cheapest_competitor.price then
            { update_attempted := none, notified := false
              status := CycleStatus.noActionCheapest }
          else
            let new_price :=
              cheapest_competitor.price - cfg.price_decrease_amount
            let new_price :=
              if new_price < cfg.min_price then cfg.min_price else new_price
            if env.update_ok then
              { update_attempted := some new_price, notified := true
                status := CycleStatus.updated }
            else
              { update_attempted := some new_price, notified := false
                status := CycleStatus.updateFailed }

/-- C1: the pricing decision is `NoAction` exactly when
`my_price <= competitor_price`; otherwise it is `SetPrice` of
`competitor_price - decrease_amount`, raised to `min_price` when that
difference is below `min_price`; and the four concrete examples
`priceDecision 10 8 1 0 = SetPrice 7`, `priceDecision 10 8 1 (15/2) =
SetPrice (15/2)`, `priceDecision 5 8 1 0 = NoAction`,
`priceDecision 8 8 1 0 = NoAction` hold. -/
theorem priceDecision_spec (m c d mn : ℚ) :
    ((priceDecision m c d mn = Decision.NoAction ↔ m ≤ c)
      ∧ (¬ m ≤ c →
          priceDecision m c d mn
            = Decision.SetPrice (if c - d < mn then mn else c - d)))
    ∧ priceDecision 10 8 1 0 = Decision.SetPrice 7
    ∧ priceDecision 10 8 1 (15/2) = Decision.SetPrice (15/2)
    ∧ priceDecision 5 8 1 0 = Decision.NoAction
    ∧ priceDecision 8 8 1 0 = Decision.NoAction := by
  refine ⟨⟨?_, ?_⟩, by norm_num [priceDecision], by norm_num [priceDecision],
    by norm_num [priceDecision], by norm_num [priceDecision]⟩
  · constructor
    · intro h
      by_contra hle
      simp [priceDecision, hle] at h
    · intro h
      simp [priceDecision, h]
  · intro h
    simp [priceDecision, h]

/-- Witness for `priceDecision_spec`: instantiating at `(10, 8, 1, 0)` and
discharging the hypothesis `¬ 10 ≤ 8` yields the concrete decision. -/
theorem priceDecision_spec_witness :
    priceDecision 10 8 1 0
      = Decision.SetPrice (if (8 : ℚ) - 1 < 0 then 0 else 8 - 1) :=
  (priceDecision_spec 10 8 1 0).1.2 (by norm_num)

lemma foldl_skip_eq_filter (my : String) (wl : List String) :
    ∀ (sellers : List Seller) (acc : Option Seller),
      sellers.foldl
        (fun cheapest seller =>
          if seller.lot_id == my then cheapest
          else if wl.contains seller.seller_id
              || wl.contains seller.seller_name then cheapest
          else pickCheaper cheapest seller) acc
      = (sellers.filter (eligibleSeller my wl)).foldl pickCheaper acc := by
  intro sellers
  induction sellers with
  | nil => intro acc; rfl
  | cons s rest ih =>
    intro acc
    simp only [List.foldl_cons, List.filter_cons]
    cases hA : (s.lot_id == my) with
    | true =>
      have helig : eligibleSeller my wl s = false := by
        unfold eligibleSeller; rw [hA]; simp
      simp only [hA, if_true, helig, Bool.false_eq_true, if_false]
      exact ih acc
    | false =>
      cases hB : (wl.contains s.seller_id || wl.contains s.seller_name) with
      | true =>
        have helig : eligibleSeller my wl s = false := by
          unfold eligibleSeller; rw [hA, hB]; decide
        simp only [hA, Bool.false_eq_true, if_false, hB, if_true, helig]
        exact ih acc
      | false =>
        have helig : eligibleSeller my wl s = true := by
          unfold eligibleSeller; rw [hA, hB]; decide
        simp only [hA, Bool.false_eq_true, if_false, hB, helig, if_true,
          List.foldl_cons]
        exact ih (pickCheaper acc s)

lemma find_cheapest_competitor_eq_filter (my : String) (wl : List String)
    (sellers : List Seller) :
    find_cheapest_competitor my wl sellers
      = (sellers.filter (eligibleSeller my wl)).foldl pickCheaper none := by
  unfold find_cheapest_competitor
  exact foldl_skip_eq_filter my wl sellers none

lemma foldl_pickCheaper_some (l : List Seller) :
    ∀ a : Seller, ∃ c, l.foldl pickCheaper (some a) = some c ∧
      ((c = a ∧ ∀ s ∈ l, a.price ≤ s.price)
        ∨ (c.price < a.price ∧ ∃ l1 l2, l = l1 ++ c :: l2
            ∧ (∀ s ∈ l1, c.price < s.price) ∧ (∀ s ∈ l2, c.price ≤ s.price))) := by
  induction l with
  | nil => exact fun a => ⟨a, rfl, Or.inl ⟨rfl, by simp⟩⟩
  | cons s rest ih =>
    intro a
    simp only [List.foldl_cons]
    by_cases h : s.price < a.price
    · have hp : pickCheaper (some a) s = some s := by simp [pickCheaper, h]
      rw [hp]
      obtain ⟨c, hc, hcase⟩ := ih s
      refine ⟨c, hc, Or.inr ?_⟩
      rcases hcase with ⟨rfl, hmin⟩ | ⟨hlt, l1, l2, heq, h1, h2⟩
      · exact ⟨h, [], rest, by simp, by simp, hmin⟩
      · refine ⟨lt_trans hlt h, s :: l1, l2, by simp [heq], ?_, h2⟩
        intro t ht
        rcases List.mem_cons.mp ht with rfl | ht'
        · exact hlt
        · exact h1 t ht'
    · have hp : pickCheaper (some a) s = some a := by simp [pickCheaper, h]
      rw [hp]
      obtain ⟨c, hc, hcase⟩ := ih a
      refine ⟨c, hc, ?_⟩
      rcases hcase with ⟨rfl, hmin⟩ | ⟨hlt, l1, l2, heq, h1, h2⟩
      · refine Or.inl ⟨rfl, ?_⟩
        intro t ht
        rcases List.mem_cons.mp ht with rfl | ht'
        · exact le_of_not_lt h
        · exact hmin t ht'
      · refine Or.inr ⟨hlt, s :: l1, l2, by simp [heq], ?_, h2⟩
        intro t ht
        rcases List.mem_cons.mp ht with rfl | ht'
        · exact lt_of_lt_of_le hlt (le_of_not_lt h)
        · exact h1 t ht'

lemma foldl_pickCheaper_none_spec (l : List Seller) :
    (l.foldl pickCheaper none = none ↔ l = [])
    ∧ ∀ c, l.foldl pickCheaper none = some c →
        ∃ l1 l2, l = l1 ++ c :: l2 ∧ (∀ s ∈ l1, c.price < s.price)
          ∧ (∀ s ∈ l2, c.price ≤ s.price) := by
  cases l with
  | nil => simp
  | cons a rest =>
    have hstep : (a :: rest).foldl pickCheaper none
        = rest.foldl pickCheaper (some a) := rfl
    obtain ⟨c', hc', hcase⟩ := foldl_pickCheaper_some rest a
    constructor
    · rw [hstep, hc']
      simp
    · intro c hc
      rw [hstep, hc'] at hc
      injection hc with hcc
      subst hcc
      rcases hcase with ⟨rfl, hmin⟩ | ⟨hlt, l1, l2, heq, h1, h2⟩
      · exact ⟨[], rest, by simp, by simp, hmin⟩
      · refine ⟨a :: l1, l2, by simp [heq], ?_, h2⟩
        intro t ht
        rcases List.mem_cons.mp ht with rfl | ht'
        · exact hlt
        · exact h1 t ht'

lemma find_cheapest_competitor_mem_filter (my : String) (wl : List String)
    (sellers : List Seller) (c : Seller)
    (h : find_cheapest_competitor my wl sellers = some c) :
    c ∈ sellers.filter (eligibleSeller my wl) := by
  rw [find_cheapest_competitor_eq_filter] at h
  obtain ⟨l1, l2, heq, -, -⟩ :=
    (foldl_pickCheaper_none_spec (sellers.filter (eligibleSeller my wl))).2 c h
  rw [heq]
  simp

lemma find_cheapest_competitor_eligible (my : String) (wl : List String)
    (sellers : List Seller) (c : Seller)
    (h : find_cheapest_competitor my wl sellers = some c) :
    eligibleSeller my wl c = true :=
  (List.mem_filter.mp (find_cheapest_competitor_mem_filter my wl sellers c h)).2

/-- C2: any seller returned by `find_cheapest_competitor` has a lot id
different from the configured own lot id, and neither its seller id nor
its seller name is a member of the whitelist. -/
theorem find_cheapest_competitor_excludes (my : String) (wl : List String)
    (sellers : List Seller) (c : Seller)
    (h : find_cheapest_competitor my wl sellers = some c) :
    c.lot_id ≠ my ∧ c.seller_id ∉ wl ∧ c.seller_name ∉ wl := by
  have helig := find_cheapest_competitor_eligible my wl sellers c h
  simp [eligibleSeller] at helig
  exact ⟨helig.1, helig.2.1, helig.2.2⟩

/-- Witness for `find_cheapest_competitor_excludes` on a concrete
three-seller snapshot: the returned competitor is neither the own listing
nor whitelisted. -/
theorem find_cheapest_competitor_excludes_witness :
    (Seller.mk "s2" "Bob" 90 "L2").lot_id ≠ "L1"
      ∧ (Seller.mk "s2" "Bob" 90 "L2").seller_id ∉ ["s3", "Carol"]
      ∧ (Seller.mk "s2" "Bob" 90 "L2").seller_name ∉ ["s3", "Carol"] :=
  find_cheapest_competitor_excludes "L1" ["s3", "Carol"]
    [Seller.mk "s1" "Me" 100 "L1", Seller.mk "s2" "Bob" 90 "L2",
      Seller.mk "s3" "Carol" 50 "L3"]
    (Seller.mk "s2" "Bob" 90 "L2")
    (by norm_num [find_cheapest_competitor, pickCheaper]; decide)

/-- C3: `find_cheapest_competitor` returns none exactly when no eligible
seller remains after the two skip tests; and when it returns a seller `c`,
the eligible sellers split (in input order) as `l1 ++ c :: l2` with every
earlier eligible seller strictly dearer and every later eligible seller at
least as dear, so `c` is the first eligible seller of minimal price. -/
theorem find_cheapest_competitor_minimal (my : String) (wl : List String)
    (sellers : List Seller) :
    (find_cheapest_competitor my wl sellers = none
      ↔ sellers.filter (eligibleSeller my wl) = [])
    ∧ ∀ c, find_cheapest_competitor my wl sellers = some c →
        c ∈ sellers.filter (eligibleSeller my wl)
        ∧ (∀ s ∈ sellers.filter (eligibleSeller my wl), c.price ≤ s.price)
        ∧ ∃ l1 l2, sellers.filter (eligibleSeller my wl) = l1 ++ c :: l2
            ∧ (∀ s ∈ l1, c.price < s.price) ∧ (∀ s ∈ l2, c.price ≤ s.price) := by
  rw [find_cheapest_competitor_eq_filter]
  obtain ⟨hnone, hsome⟩ :=
    foldl_pickCheaper_none_spec (sellers.filter (eligibleSeller my wl))
  refine ⟨hnone, fun c hc => ?_⟩
  obtain ⟨l1, l2, heq, h1, h2⟩ := hsome c hc
  refine ⟨by rw [heq]; simp, ?_, l1, l2, heq, h1, h2⟩
  intro s hs
  rw [heq] at hs
  rcases List.mem_append.mp hs with hs1 | hs2
  · exact le_of_lt (h1 s hs1)
  · rcases List.mem_cons.mp hs2 with rfl | hs2'
    · exact le_refl _
    · exact h2 s hs2'

/-- Witness for `find_cheapest_competitor_minimal` on the spec scenario
(self at 100, competitor A at 90, whitelisted B at 50): the returned
competitor A is eligible and of minimal price among eligible sellers. -/
theorem find_cheapest_competitor_minimal_witness :
    Seller.mk "sA" "A" 90 "LA"
        ∈ ([Seller.mk "s1" "Me" 100 "L1", Seller.mk "sA" "A" 90 "LA",
            Seller.mk "sB" "B" 50 "LB"].filter (eligibleSeller "L1" ["sB"]))
      ∧ (∀ s ∈ ([Seller.mk "s1" "Me" 100 "L1", Seller.mk "sA" "A" 90 "LA",
            Seller.mk "sB" "B" 50 "LB"].filter (eligibleSeller "L1" ["sB"])),
          (Seller.mk "sA" "A" 90 "LA").price ≤ s.price)
      ∧ ∃ l1 l2,
          ([Seller.mk "s1" "Me" 100 "L1", Seller.mk "sA" "A" 90 "LA",
            Seller.mk "sB" "B" 50 "LB"].filter (eligibleSeller "L1" ["sB"]))
            = l1 ++ Seller.mk "sA" "A" 90 "LA" :: l2
          ∧ (∀ s ∈ l1, (Seller.mk "sA" "A" 90 "LA").price < s.price)
          ∧ (∀ s ∈ l2, (Seller.mk "sA" "A" 90 "LA").price ≤ s.price) :=
  (find_cheapest_competitor_minimal "L1" ["sB"]
    [Seller.mk "s1" "Me" 100 "L1", Seller.mk "sA" "A" 90 "LA",
      Seller.mk "sB" "B" 50 "LB"]).2
    (Seller.mk "sA" "A" 90 "LA")
    (by norm_num [find_cheapest_competitor, pickCheaper]; decide)

/-- C6: when some seller carries the configured lot id, `find_my_listing`
returns a seller carrying that lot id; and it returns none exactly when no
seller in the snapshot carries the configured lot id. -/
theorem find_my_listing_spec (my : String) (sellers : List Seller) :
    ((∃ s ∈ sellers, s.lot_id = my) →
      ∃ r, find_my_listing my sellers = some r ∧ r.lot_id = my)
    ∧ (find_my_listing my sellers = none ↔ ∀ s ∈ sellers, s.lot_id ≠ my) := by
  induction sellers with
  | nil => simp [find_my_listing]
  | cons s rest ih =>
    cases hb : (s.lot_id == my) with
    | true =>
      have he : s.lot_id = my := by simpa using hb
      constructor
      · intro _
        exact ⟨s, by simp [find_my_listing, hb], he⟩
      · constructor
        · intro h0
          simp [find_my_listing, hb] at h0
        · intro hall
          exact absurd he (hall s (by simp))
    | false =>
      have hne : s.lot_id ≠ my := by simpa using hb
      have hrec : find_my_listing my (s :: rest) = find_my_listing my rest := by
        simp [find_my_listing, hb]
      constructor
      · rintro ⟨t, ht, hteq⟩
        rcases List.mem_cons.mp ht with rfl | ht'
        · exact absurd hteq hne
        · obtain ⟨r, hr, hre⟩ := ih.1 ⟨t, ht', hteq⟩
          exact ⟨r, by rw [hrec]; exact hr, hre⟩
      · rw [hrec, ih.2]
        constructor
        · intro hall t ht
          rcases List.mem_cons.mp ht with rfl | ht'
          · exact hne
          · exact hall t ht'
        · intro hall t ht
          exact hall t (List.mem_cons_of_mem _ ht)

/-- Witness for `find_my_listing_spec`: on a concrete snapshot containing
lot id "L1", the own listing is found and carries lot id "L1". -/
theorem find_my_listing_spec_witness :
    ∃ r, find_my_listing "L1"
        [Seller.mk "s2" "Bob" 90 "L2", Seller.mk "s1" "Me" 100 "L1"]
        = some r ∧ r.lot_id = "L1" :=
  (find_my_listing_spec "L1"
    [Seller.mk "s2" "Bob" 90 "L2", Seller.mk "s1" "Me" 100 "L1"]).1
    ⟨Seller.mk "s1" "Me" 100 "L1", by simp, rfl⟩

/-- C10: when several sellers carry the configured lot id, `find_my_listing`
returns the first of them in input order, and `find_cheapest_competitor`
never returns any seller carrying that lot id. -/
theorem duplicate_self_handling (my : String) (wl : List String) :
    (∀ (l1 : List Seller) (s : Seller) (l2 : List Seller),
        s.lot_id = my → (∀ t ∈ l1, t.lot_id ≠ my) →
        find_my_listing my (l1 ++ s :: l2) = some s)
    ∧ (∀ (sellers : List Seller) (c : Seller),
        find_cheapest_competitor my wl sellers = some c →
        ∀ s ∈ sellers, s.lot_id = my → c ≠ s) := by
  constructor
  · intro l1
    induction l1 with
    | nil =>
      intro s l2 hs _
      simp [find_my_listing, hs]
    | cons t rest ih =>
      intro s l2 hs hall
      have ht : t.lot_id ≠ my := hall t (by simp)
      have hb : (t.lot_id == my) = false := by simpa using ht
      rw [List.cons_append,
        show find_my_listing my (t :: (rest ++ s :: l2))
          = find_my_listing my (rest ++ s :: l2) from by
            simp [find_my_listing, hb]]
      exact ih s l2 hs fun u hu => hall u (by simp [hu])
  · intro sellers c hc s _ hsid hcs
    have helig := find_cheapest_competitor_eligible my wl sellers c hc
    rw [hcs] at helig
    simp [eligibleSeller, hsid] at helig

/-- Witness for `duplicate_self_handling` on a snapshot with two sellers
carrying the own lot id: the first is returned by `find_my_listing`, and
the competitor returned by `find_cheapest_competitor` is neither of them. -/
theorem duplicate_self_handling_witness :
    find_my_listing "L1"
        ([] ++ Seller.mk "s1" "Me" 100 "L1"
          :: [Seller.mk "s9" "Ghost" 10 "L1", Seller.mk "s2" "Bob" 90 "L2"])
        = some (Seller.mk "s1" "Me" 100 "L1")
      ∧ Seller.mk "s2" "Bob" 90 "L2" ≠ Seller.mk "s9" "Ghost" 10 "L1" := by
  constructor
  · exact (duplicate_self_handling "L1" []).1 []
      (Seller.mk "s1" "Me" 100 "L1")
      [Seller.mk "s9" "Ghost" 10 "L1", Seller.mk "s2" "Bob" 90 "L2"]
      rfl (by simp)
  · refine fun h => (duplicate_self_handling "L1" []).2
      [Seller.mk "s1" "Me" 100 "L1", Seller.mk "s9" "Ghost" 10 "L1",
        Seller.mk "s2" "Bob" 90 "L2"]
      (Seller.mk "s2" "Bob" 90 "L2")
      (by norm_num [find_cheapest_competitor, pickCheaper]; decide)
      (Seller.mk "s9" "Ghost" 10 "L1") (by simp) rfl h

/-- C4 fails on the code: a configuration file with non-empty `game_id`,
`server_id` and `lot_id` but `min_price = 0` is rejected by
`load_config_file`, because Python's `if not self.config[field]` treats the
number 0 as missing. -/
theorem load_config_min_price_zero_rejected :
    (load_config_file (defaultCONFIG CVal.vnull CVal.vnull CVal.vnull CVal.vnull)
      (some [("game_id", CVal.vstr "41"), ("server_id", CVal.vstr "210"),
        ("lot_id", CVal.vstr "12345"), ("min_price", CVal.vnum 0)])).1
      = false := by
  simp +decide [load_config_file, applyUserConfig, configHasKey, configSet,
    configGet, defaultCONFIG, requiredFields, CVal.falsy]

/-- C4 amended: on a configuration file setting the four required fields,
`load_config_file` succeeds exactly when `game_id`, `server_id` and
`lot_id` are non-empty and `min_price` is nonzero; in particular
`min_price = 0` is reported as a missing required field. -/
theorem load_config_required_fields (tg tgc fu fp : CVal) (g s l : String)
    (q : ℚ) :
    (load_config_file (defaultCONFIG tg tgc fu fp)
        (some [("game_id", CVal.vstr g), ("server_id", CVal.vstr s),
          ("lot_id", CVal.vstr l), ("min_price", CVal.vnum q)])).1 = true
      ↔ (g ≠ "" ∧ s ≠ "" ∧ l ≠ "" ∧ q ≠ 0) := by
  simp +decide [load_config_file, applyUserConfig, configHasKey, configSet,
    configGet, defaultCONFIG, requiredFields, CVal.falsy]

/-- Witness for `load_config_required_fields`: a file with non-empty ids
and `min_price = 5` is accepted. -/
theorem load_config_required_fields_witness :
    (load_config_file (defaultCONFIG CVal.vnull CVal.vnull CVal.vnull CVal.vnull)
        (some [("game_id", CVal.vstr "41"), ("server_id", CVal.vstr "210"),
          ("lot_id", CVal.vstr "12345"), ("min_price", CVal.vnum 5)])).1
      = true :=
  (load_config_required_fields CVal.vnull CVal.vnull CVal.vnull CVal.vnull
    "41" "210" "12345" 5).mpr
    (by refine ⟨by decide, by decide, by decide, by norm_num⟩)

/-- C5: in the degenerate case `min_price ≥ competitor_price`, the engine
still decides `SetPrice` of the clamped value whenever
`my_price > competitor_price`, and `check_and_update_price` still passes
that clamped value to `update_my_price` rather than skipping the update. -/
theorem degenerate_floor_still_sets (m c d mn : ℚ) (cfg : PricingConfig)
    (env : CycleEnv) (myl comp : Seller) :
    (mn ≥ c → m > c →
      priceDecision m c d mn
        = Decision.SetPrice (if c - d < mn then mn else c - d))
    ∧ ((!env.logged_in && !env.login_ok) = false →
        find_my_listing cfg.lot_id (get_market_prices true env.fetch)
          = some myl →
        find_cheapest_competitor cfg.lot_id cfg.whitelist
            (get_market_prices true env.fetch) = some comp →
        cfg.min_price ≥ comp.price →
        myl.price > comp.price →
        (check_and_update_price cfg env).update_attempted
          = some (if comp.price - cfg.price_decrease_amount < cfg.min_price
              then cfg.min_price
              else comp.price - cfg.price_decrease_amount)) := by
  constructor
  · intro _ hgt
    have hnle : ¬ m ≤ c := not_le.mpr hgt
    simp [priceDecision, hnle]
  · intro hlog hfm hfc _ hgt
    have hne : (get_market_prices true env.fetch).isEmpty = false := by
      cases hl : get_market_prices true env.fetch with
      | nil => rw [hl] at hfm; simp [find_my_listing] at hfm
      | cons a rest => simp
    have hnle : ¬ myl.price ≤ comp.price := not_le.mpr hgt
    unfold check_and_update_price
    cases hup : env.update_ok <;> simp [hlog, hne, hfm, hfc, hnle, hup]

/-- Witness for `degenerate_floor_still_sets`: with floor 95 above the
competitor's price 90 and own price 100, the update is attempted with the
clamped price. -/
theorem degenerate_floor_still_sets_witness :
    (check_and_update_price (PricingConfig.mk "L1" [] 1 95)
        (CycleEnv.mk true false
          (Except.ok [Lot.mk "s1" "Me" 100 "L1", Lot.mk "s2" "Bob" 90 "L2"])
          true)).update_attempted
      = some (if (90 : ℚ) - 1 < 95 then 95 else 90 - 1) :=
  (degenerate_floor_still_sets 100 90 1 95 (PricingConfig.mk "L1" [] 1 95)
    (CycleEnv.mk true false
      (Except.ok [Lot.mk "s1" "Me" 100 "L1", Lot.mk "s2" "Bob" 90 "L2"])
      true)
    (Seller.mk "s1" "Me" 100 "L1") (Seller.mk "s2" "Bob" 90 "L2")).2
    (by decide)
    (by norm_num [get_market_prices, find_my_listing])
    (by
      norm_num [get_market_prices, find_cheapest_competitor, pickCheaper]
      decide)
    (by norm_num) (by norm_num)

/-- C7: `check_and_update_price` invokes the notification only in the run
that ends with a successful price update; when the update call fails, no
notification is sent. -/
theorem notify_only_after_update (cfg : PricingConfig) (env : CycleEnv) :
    ((check_and_update_price cfg env).notified = true →
      env.update_ok = true
        ∧ (check_and_update_price cfg env).status = CycleStatus.updated
        ∧ ((check_and_update_price cfg env).update_attempted).isSome = true)
    ∧ (env.update_ok = false →
        (check_and_update_price cfg env).notified = false) := by
  unfold check_and_update_price
  cases hlog : (!env.logged_in && !env.login_ok) with
  | true => simp [hlog]
  | false =>
    cases hemp : (get_market_prices true env.fetch).isEmpty with
    | true => simp [hlog, hemp]
    | false =>
      cases hfm : find_my_listing cfg.lot_id (get_market_prices true env.fetch)
        with
      | none => simp [hlog, hemp, hfm]
      | some myl =>
        cases hfc : find_cheapest_competitor cfg.lot_id cfg.whitelist
            (get_market_prices true env.fetch) with
        | none => simp [hlog, hemp, hfm, hfc]
        | some comp =>
          by_cases hle : myl.price ≤ comp.price
          · simp [hlog, hemp, hfm, hfc, hle]
          · cases hup : env.update_ok with
            | true => simp [hlog, hemp, hfm, hfc, hle, hup]
            | false => simp [hlog, hemp, hfm, hfc, hle, hup]

/-- Witness for `notify_only_after_update`: in a run whose update succeeds
and notifies, the status is `updated` and an update price was passed. -/
theorem notify_only_after_update_witness :
    (CycleEnv.mk true false
        (Except.ok [Lot.mk "s1" "Me" 100 "L1", Lot.mk "s2" "Bob" 90 "L2"])
        true).update_ok = true
      ∧ (check_and_update_price (PricingConfig.mk "L1" [] 1 0)
          (CycleEnv.mk true false
            (Except.ok [Lot.mk "s1" "Me" 100 "L1", Lot.mk "s2" "Bob" 90 "L2"])
            true)).status = CycleStatus.updated
      ∧ ((check_and_update_price (PricingConfig.mk "L1" [] 1 0)
          (CycleEnv.mk true false
            (Except.ok [Lot.mk "s1" "Me" 100 "L1", Lot.mk "s2" "Bob" 90 "L2"])
            true)).update_attempted).isSome = true :=
  (notify_only_after_update (PricingConfig.mk "L1" [] 1 0)
    (CycleEnv.mk true false
      (Except.ok [Lot.mk "s1" "Me" 100 "L1", Lot.mk "s2" "Bob" 90 "L2"])
      true)).1
    (by norm_num [check_and_update_price, get_market_prices, find_my_listing,
      find_cheapest_competitor, pickCheaper]; decide)

/-- C8: a failed or not-logged-in snapshot query yields the empty list
rather than an error, and a cycle that gets an empty snapshot ends as a
plain abort: no update attempted, no notification, status
`abortNoSellers`. -/
theorem snapshot_failure_nonfatal (e : String)
    (fetch : Except String (List Lot)) (cfg : PricingConfig)
    (env : CycleEnv) :
    get_market_prices true (Except.error e) = []
    ∧ get_market_prices false fetch = []
    ∧ ((env.logged_in || env.login_ok) = true →
        get_market_prices true env.fetch = [] →
        check_and_update_price cfg env
          = { update_attempted := none, notified := false
              status := CycleStatus.abortNoSellers }) := by
  refine ⟨rfl, by simp [get_market_prices], ?_⟩
  intro hlo hempty
  have hlog : (!env.logged_in && !env.login_ok) = false := by
    cases h1 : env.logged_in <;> cases h2 : env.login_ok <;>
      simp_all
  unfold check_and_update_price
  simp [hlog, hempty]

/-- Witness for `snapshot_failure_nonfatal`: a cycle whose remote query
raised ends with the `abortNoSellers` outcome. -/
theorem snapshot_failure_nonfatal_witness :
    check_and_update_price (PricingConfig.mk "L1" [] 1 0)
        (CycleEnv.mk true false (Except.error "connection reset") true)
      = { update_attempted := none, notified := false
          status := CycleStatus.abortNoSellers } :=
  (snapshot_failure_nonfatal "connection reset" (Except.ok [])
    (PricingConfig.mk "L1" [] 1 0)
    (CycleEnv.mk true false (Except.error "connection reset") true)).2.2
    rfl rfl

lemma configSet_keys (cfg : List (String × CVal)) (k : String) (v : CVal) :
    (configSet cfg k v).map Prod.fst = cfg.map Prod.fst := by
  induction cfg with
  | nil => rfl
  | cons p rest ih =>
    simp only [configSet, List.map_cons] at ih ⊢
    rw [ih]
    cases hb : (p.1 == k) with
    | true =>
      have he : p.1 = k := by simpa using hb
      simp only [hb, if_true]
      rw [he]
    | false =>
      simp only [hb, Bool.false_eq_true, if_false]

lemma configGet_configSet_ne (cfg : List (String × CVal)) (k : String)
    (v : CVal) (k' : String) (hne : k ≠ k') :
    configGet (configSet cfg k v) k' = configGet cfg k' := by
  induction cfg with
  | nil => rfl
  | cons p rest ih =>
    have h1 : (k == k') = false := by simpa using hne
    cases hb : (p.1 == k) with
    | true =>
      have he : p.1 = k := by simpa using hb
      have h2 : (p.1 == k') = false := by rw [he]; exact h1
      simp only [configSet, List.map_cons, configGet, List.find?, hb, if_true,
        h1, h2] at ih ⊢
      exact ih
    | false =>
      cases hb' : (p.1 == k') with
      | true =>
        simp only [configSet, List.map_cons, configGet, List.find?, hb,
          Bool.false_eq_true, if_false, hb']
      | false =>
        simp only [configSet, List.map_cons, configGet, List.find?, hb,
          Bool.false_eq_true, if_false, hb'] at ih ⊢
        exact ih

lemma applyUserConfig_keys (user : List (String × CVal)) :
    ∀ cfg : List (String × CVal),
      (applyUserConfig cfg user).map Prod.fst = cfg.map Prod.fst := by
  induction user with
  | nil => intro cfg; rfl
  | cons kv rest ih =>
    intro cfg
    show (applyUserConfig
        (if configHasKey cfg kv.1 then configSet cfg kv.1 kv.2 else cfg)
        rest).map Prod.fst = cfg.map Prod.fst
    cases h : configHasKey cfg kv.1 with
    | true =>
      rw [if_pos rfl]
      rw [ih (configSet cfg kv.1 kv.2)]
      exact configSet_keys cfg kv.1 kv.2
    | false =>
      rw [if_neg (by simp [h])]
      exact ih cfg

lemma applyUserConfig_absent_key (user : List (String × CVal)) :
    ∀ (cfg : List (String × CVal)) (k : String),
      (∀ kv ∈ user, kv.1 ≠ k) →
      configGet (applyUserConfig cfg user) k = configGet cfg k := by
  induction user with
  | nil => intro cfg k _; rfl
  | cons kv rest ih =>
    intro cfg k hall
    show configGet (applyUserConfig
        (if configHasKey cfg kv.1 then configSet cfg kv.1 kv.2 else cfg)
        rest) k = configGet cfg k
    have hrest : ∀ kv' ∈ rest, kv'.1 ≠ k := fun kv' h =>
      hall kv' (List.mem_cons_of_mem _ h)
    have hhd : kv.1 ≠ k := hall kv (by simp)
    cases h : configHasKey cfg kv.1 with
    | true =>
      rw [if_pos rfl, ih (configSet cfg kv.1 kv.2) k hrest]
      exact configGet_configSet_ne cfg kv.1 kv.2 k hhd
    | false =>
      rw [if_neg (by simp [h])]
      exact ih cfg k hrest

lemma applyUserConfig_unrecognized (user : List (String × CVal)) :
    ∀ cfg : List (String × CVal),
      (∀ kv ∈ user, configHasKey cfg kv.1 = false) →
      applyUserConfig cfg user = cfg := by
  induction user with
  | nil => intro cfg _; rfl
  | cons kv rest ih =>
    intro cfg hall
    show applyUserConfig
        (if configHasKey cfg kv.1 then configSet cfg kv.1 kv.2 else cfg)
        rest = cfg
    rw [if_neg (by simp [hall kv (by simp)])]
    exact ih cfg fun kv' h => hall kv' (List.mem_cons_of_mem _ h)

/-- C9: merging a configuration file never changes the config's key list
(unrecognized file keys are silently dropped); a recognized key with no
entry in the file keeps its prior value; and a file with only unrecognized
keys leaves the config unchanged. -/
theorem load_config_frame (cfg user : List (String × CVal)) :
    ((load_config_file cfg (some user)).2.map Prod.fst = cfg.map Prod.fst)
    ∧ (∀ k, (∀ kv ∈ user, kv.1 ≠ k) →
        configGet (load_config_file cfg (some user)).2 k = configGet cfg k)
    ∧ ((∀ kv ∈ user, configHasKey cfg kv.1 = false) →
        (load_config_file cfg (some user)).2 = cfg) := by
  refine ⟨?_, ?_, ?_⟩
  · exact applyUserConfig_keys user cfg
  · intro k hk
    exact applyUserConfig_absent_key user cfg k hk
  · intro h
    exact applyUserConfig_unrecognized user cfg h

/-- Witness for `load_config_frame`: a file holding only the unknown key
"proxy" leaves the default config unchanged, and in particular leaves
`min_price` at its prior value. -/
theorem load_config_frame_witness :
    configGet (load_config_file
          (defaultCONFIG CVal.vnull CVal.vnull CVal.vnull CVal.vnull)
          (some [("proxy", CVal.vstr "socks5")])).2 "min_price"
        = configGet (defaultCONFIG CVal.vnull CVal.vnull CVal.vnull CVal.vnull)
          "min_price"
      ∧ (load_config_file
          (defaultCONFIG CVal.vnull CVal.vnull CVal.vnull CVal.vnull)
          (some [("proxy", CVal.vstr "socks5")])).2
        = defaultCONFIG CVal.vnull CVal.vnull CVal.vnull CVal.vnull :=
  ⟨(load_config_frame
      (defaultCONFIG CVal.vnull CVal.vnull CVal.vnull CVal.vnull)
      [("proxy", CVal.vstr "socks5")]).2.1 "min_price" (by decide),
    (load_config_frame
      (defaultCONFIG CVal.vnull CVal.vnull CVal.vnull CVal.vnull)
      [("proxy", CVal.vstr "socks5")]).2.2 (by decide)⟩

end AutoDumper
